import Mathlib

/-!
# Verification of the SDLC workflow engine

Shallow embedding of the stage workflow engine of the SDLC-AIAGENT
repository, together with proofs of the specified properties.

Modelling conventions:
* Python dicts keyed by strings are embedded as association lists
  `List (String × _)`; insertion order is preserved, as in Python.
* Timestamps are embedded as integers (seconds); `datetime.now()` becomes an
  explicit `now : Int` parameter.  ISO-8601 parsing is outside the model: the
  properties below are stated for histories whose timestamps parse, so an
  entry carries its parsed timestamp directly.
* External generative-model calls (`llm.invoke`) are oracles, passed in as
  function parameters; their return values are never interpreted by the
  engine except where the source interprets them.
* A raised Python exception is embedded as `Except.error`.
-/

/-! ## Stage registry and session state (`src/state/sdlc_state.py`) -/

/-- The fixed stage order of `SDLCState.get_next_stage`. -/
def sdlcStages : List String :=
  ["REQUIREMENTS", "USER_STORIES", "DESIGN", "CODE", "SECURITY", "TESTING", "COMPLETE"]

/-- `list.index(x)` from Python: index of the first occurrence, `none` when the
element is absent (the `ValueError` case). -/
def listIndex : List String → String → Option Nat
  | [], _ => none
  | a :: rest, x =>
    if a = x then some 0
    else match listIndex rest x with
      | some i => some (i + 1)
      | none => none

/-- Efficiency-analysis record returned by `analyze_workflow_efficiency`. -/
structure EffAnalysis where
  total_time_seconds : Int
  phase_percentages : List (String × ℚ)
  bottlenecks : List String
  efficiency_score : ℚ
  balanced : Bool
deriving DecidableEq, Repr

/-- Monitoring record stored under the `monitoring` key by
`monitor_workflow_progress`. -/
structure MonitoringData where
  phase_times : List (String × Int)
  efficiency_analysis : EffAnalysis
  bottlenecks : List String
  insights : String
  last_monitored : Int
deriving DecidableEq, Repr

/-- Complexity-classification record produced by `analyze_project_complexity`
(`src/graph/dynamic_graph_builder.py`). -/
structure Analysis where
  complexity : String
  security_critical : Bool
  performance_critical : Bool
  data_intensive : Bool
  user_interface_focused : Bool
  integration_heavy : Bool
deriving DecidableEq, Repr

/-- `SDLCState` (pydantic model in `src/state/sdlc_state.py`).  History entries
are `{stage, timestamp}` pairs. -/
structure SDLCState where
  session_id : String
  current_stage : String
  requirements : Option String
  user_stories : Option String
  functional_design : Option String
  non_functional_design : Option String
  code_artifacts : Option (List (String × String))
  security_findings : Option String
  test_cases : Option String
  test_results : Option String
  feedback : List (String × List String)
  created_at : Int
  last_updated : Int
  history : List (String × Int)
  monitoring : Option MonitoringData
  complexity_analysis : Option Analysis
deriving DecidableEq, Repr

/-- A fresh state with the pydantic defaults (used to build concrete states). -/
def baseState : SDLCState where
  session_id := "s1"
  current_stage := "REQUIREMENTS"
  requirements := none
  user_stories := none
  functional_design := none
  non_functional_design := none
  code_artifacts := none
  security_findings := none
  test_cases := none
  test_results := none
  feedback := []
  created_at := 0
  last_updated := 0
  history := []
  monitoring := none
  complexity_analysis := none

namespace SDLCState

/-- `SDLCState.update_stage`: append the *current* stage to history, then move
to the new stage and refresh `last_updated`. -/
def update_stage (s : SDLCState) (new_stage : String) (now : Int) : SDLCState :=
  { s with
    history := s.history ++ [(s.current_stage, now)]
    current_stage := new_stage
    last_updated := now }

/-- `feedback[stage].append(text)`, creating the list when the key is absent
(`SDLCState.add_feedback`). -/
def fbAppend : List (String × List String) → String → String → List (String × List String)
  | [], stage, text => [(stage, [text])]
  | (k, l) :: rest, stage, text =>
    if k = stage then (k, l ++ [text]) :: rest
    else (k, l) :: fbAppend rest stage text

/-- `SDLCState.add_feedback`. -/
def add_feedback (s : SDLCState) (stage text : String) (now : Int) : SDLCState :=
  { s with feedback := fbAppend s.feedback stage text, last_updated := now }

/-- `SDLCState.get_next_stage`: position of `current_stage` in the fixed list;
the `ValueError` branch (unknown stage) returns `REQUIREMENTS`. -/
def get_next_stage (s : SDLCState) : String :=
  match listIndex sdlcStages s.current_stage with
  | some i =>
    if i < sdlcStages.length - 1 then sdlcStages.getD (i + 1) "COMPLETE"
    else "COMPLETE"
  | none => "REQUIREMENTS"

end SDLCState

/-- Feedback list stored for a stage, `feedback.get(stage, [])`. -/
def fbGet (m : List (String × List String)) (stage : String) : List String :=
  match m with
  | [] => []
  | (k, l) :: rest => if k = stage then l else fbGet rest stage

theorem listIndex_eq_none {l : List String} {x : String} (h : x ∉ l) :
    listIndex l x = none := by
  induction l with
  | nil => rfl
  | cons a rest ih =>
    simp only [List.mem_cons, not_or] at h
    simp only [listIndex, if_neg (Ne.symm h.1), ih h.2]

/-! ## Stage registry properties (claims C7, C3) -/

/-- C7 (stage order invariant): for every canonical stage other than
`COMPLETE`, `get_next_stage` returns the fixed successor in the order
REQUIREMENTS, USER_STORIES, DESIGN, CODE, SECURITY, TESTING, COMPLETE, and
`get_next_stage` applied to `COMPLETE` returns `COMPLETE`. -/
theorem stage_order_invariant (s : SDLCState) :
    (s.current_stage = "REQUIREMENTS" → s.get_next_stage = "USER_STORIES") ∧
    (s.current_stage = "USER_STORIES" → s.get_next_stage = "DESIGN") ∧
    (s.current_stage = "DESIGN" → s.get_next_stage = "CODE") ∧
    (s.current_stage = "CODE" → s.get_next_stage = "SECURITY") ∧
    (s.current_stage = "SECURITY" → s.get_next_stage = "TESTING") ∧
    (s.current_stage = "TESTING" → s.get_next_stage = "COMPLETE") ∧
    (s.current_stage = "COMPLETE" → s.get_next_stage = "COMPLETE") := by
  refine ⟨?_, ?_, ?_, ?_, ?_, ?_, ?_⟩ <;>
    (intro h; unfold SDLCState.get_next_stage; rw [h]; rfl)

/-- Witness for C7 at a concrete state. -/
theorem stage_order_invariant_witness :
    baseState.current_stage = "REQUIREMENTS" ∧ baseState.get_next_stage = "USER_STORIES" :=
  ⟨rfl, (stage_order_invariant baseState).1 rfl⟩

/-- A state whose `current_stage` is not a canonical stage name. -/
def unknownStageState : SDLCState := { baseState with current_stage := "ARCHITECTURE_REVIEW" }

/-- C3 counterexample: on an unrecognized stage name, `get_next_stage` does
*not* return `COMPLETE` (the `ValueError` branch returns `REQUIREMENTS`). -/
theorem unknown_stage_fallback_cex :
    unknownStageState.current_stage ∉ sdlcStages ∧
      unknownStageState.get_next_stage ≠ "COMPLETE" := by decide

/-- C3 (amended): for every input string that is not one of the seven
canonical stage names, `get_next_stage` returns `REQUIREMENTS`. -/
theorem unknown_stage_fallback (s : SDLCState) (h : s.current_stage ∉ sdlcStages) :
    s.get_next_stage = "REQUIREMENTS" := by
  unfold SDLCState.get_next_stage
  rw [listIndex_eq_none h]

/-- Witness for C3 (amended) at a concrete state. -/
theorem unknown_stage_fallback_witness :
    unknownStageState.current_stage ∉ sdlcStages ∧
      unknownStageState.get_next_stage = "REQUIREMENTS" :=
  ⟨by decide, unknown_stage_fallback unknownStageState (by decide)⟩

/-! ## `update_stage` records the outgoing stage (claim C10) -/

/-- A sequence of `update_stage` transitions, each with its own timestamp. -/
def applySeq (s : SDLCState) (l : List (String × Int)) : SDLCState :=
  l.foldl (fun st p => st.update_stage p.1 p.2) s

theorem applySeq_concat (s : SDLCState) (l : List (String × Int)) (x : String × Int) :
    applySeq s (l ++ [x]) = (applySeq s l).update_stage x.1 x.2 := by
  simp [applySeq, List.foldl_append]

/-- C10: `update_stage new_stage` appends exactly one history entry carrying
the pre-transition `current_stage`, then sets `current_stage` to `new_stage`
and refreshes `last_updated`; after any sequence of transitions the last
history entry names the stage most recently exited. -/
theorem update_stage_records_outgoing (s : SDLCState) (ns : String) (now : Int) :
    ((s.update_stage ns now).history = s.history ++ [(s.current_stage, now)] ∧
      (s.update_stage ns now).current_stage = ns ∧
      (s.update_stage ns now).last_updated = now) ∧
    ∀ (l : List (String × Int)) (stg : String) (t : Int),
      l.getLast? = some (stg, t) →
      (applySeq s l).history.getLast? =
        some ((applySeq s l.dropLast).current_stage, t) := by
  refine ⟨⟨rfl, rfl, rfl⟩, ?_⟩
  intro l stg t hlast
  rcases (List.eq_nil_or_concat l) with h | ⟨l', x, rfl⟩
  · subst h; simp at hlast
  · simp only [List.concat_eq_append] at hlast ⊢
    rw [List.getLast?_concat] at hlast
    rw [applySeq_concat, List.dropLast_concat]
    simp only [SDLCState.update_stage, List.getLast?_concat]
    obtain rfl : x = (stg, t) := by injection hlast
    rfl

/-- Witness for C10 at a concrete state and transition sequence. -/
theorem update_stage_records_outgoing_witness :
    (baseState.update_stage "USER_STORIES" 5).history = [("REQUIREMENTS", 5)] ∧
    (applySeq baseState [("USER_STORIES", 5), ("DESIGN", 9)]).history.getLast? =
      some ((applySeq baseState [("USER_STORIES", 5)]).current_stage, 9) :=
  ⟨((update_stage_records_outgoing baseState "USER_STORIES" 5).1).1,
    (update_stage_records_outgoing baseState "USER_STORIES" 5).2
      [("USER_STORIES", 5), ("DESIGN", 9)] "DESIGN" 9 rfl⟩

/-! ## Workflow monitor (`src/monitoring/workflow_monitor.py`) -/

/-- `defaultdict(float)` accumulation `m[k] += v`: add onto an existing key in
place, or create the key at the end. -/
def addTo : List (String × Int) → String → Int → List (String × Int)
  | [], k, v => [(k, v)]
  | (k', v') :: rest, k, v =>
    if k' = k then (k', v' + v) :: rest else (k', v') :: addTo rest k v

/-- `sum(m.values())` for an association list. -/
def sumVals (m : List (String × Int)) : Int := (m.map Prod.snd).sum

/-- The `for i in range(1, len(history))` loop of `monitor_workflow_progress`:
for each consecutive pair of history entries, accumulate the timestamp
difference onto the earlier entry's stage. -/
def accumPairs : List (String × Int) → List (String × Int) → List (String × Int)
  | m, (s1, t1) :: (s2, t2) :: rest => accumPairs (addTo m s1 (t2 - t1)) ((s2, t2) :: rest)
  | m, _ => m

/-- The `phase_times` computation of `monitor_workflow_progress`: the pair
loop (guarded by `len(history) > 1`) followed by the trailing open interval
from the last entry to `now`, attributed to the last recorded stage. -/
def phase_times_of (history : List (String × Int)) (now : Int) : List (String × Int) :=
  let m := if 1 < history.length then accumPairs [] history else []
  match history.getLast? with
  | some (s, t) => addTo m s (now - t)
  | none => m

/-- `analyze_workflow_efficiency`.  A Python `ZeroDivisionError` is an
`Except.error`, raised exactly where the source divides: first in the
`phase_percentages` comprehension (some phase present with `total_time == 0`),
then at `time_variance / len(phase_times)` when the dict is empty. -/
def analyze_workflow_efficiency (pt : List (String × Int)) : Except String EffAnalysis :=
  let total := sumVals pt
  if pt ≠ [] ∧ total = 0 then Except.error "ZeroDivisionError"
  else
    let phase_percentages := pt.map (fun kv => (kv.1, ((kv.2 : ℚ) / (total : ℚ)) * 100))
    let bottlenecks := (phase_percentages.filter (fun kv => 30 < kv.2)).map Prod.fst
    let time_variance :=
      (phase_percentages.map (fun kv => (kv.2 - 100 / (pt.length : ℚ)) ^ 2)).sum
    if pt.length = 0 then Except.error "ZeroDivisionError"
    else Except.ok {
      total_time_seconds := total
      phase_percentages := phase_percentages
      bottlenecks := bottlenecks
      efficiency_score := time_variance / (pt.length : ℚ)
      balanced := decide (time_variance / (pt.length : ℚ) < 400) }

/-- `monitor_workflow_progress`, restricted to the fields it reads
(`current_stage`, `history`) and returning the `monitoring` record it stores.
The LLM insight call is an oracle (`insights_oracle`); `current_stage` and the
recent history feed only its prompt. -/
def monitor_workflow_progress (insights_oracle : String) (current_stage : String)
    (history : List (String × Int)) (now : Int) : Except String MonitoringData :=
  let pt := phase_times_of history now
  match analyze_workflow_efficiency pt with
  | Except.error e => Except.error e
  | Except.ok analysis =>
    let insights :=
      if history ≠ [] ∧ 1 < pt.length then insights_oracle
      else "Not enough data to generate meaningful insights yet."
    Except.ok {
      phase_times := pt
      efficiency_analysis := analysis
      bottlenecks := analysis.bottlenecks
      insights := insights
      last_monitored := now }

theorem accumPairs_nil (m : List (String × Int)) : accumPairs m [] = m := rfl

theorem accumPairs_single (m : List (String × Int)) (a : String × Int) :
    accumPairs m [a] = m := by
  cases a; rfl

theorem accumPairs_cons_cons (m : List (String × Int)) (a b : String × Int)
    (rest : List (String × Int)) :
    accumPairs m (a :: b :: rest) = accumPairs (addTo m a.1 (b.2 - a.2)) (b :: rest) := by
  cases a; cases b; rfl

theorem sumVals_addTo (m : List (String × Int)) (k : String) (v : Int) :
    sumVals (addTo m k v) = sumVals m + v := by
  induction m with
  | nil => simp [addTo, sumVals]
  | cons p rest ih =>
    obtain ⟨k', v'⟩ := p
    by_cases hk : k' = k
    · simp [addTo, hk, sumVals]; ring
    · simp only [addTo, if_neg hk, sumVals, List.map_cons, List.sum_cons]
      simp only [sumVals] at ih
      rw [ih]; ring

theorem addTo_ne_nil (m : List (String × Int)) (k : String) (v : Int) :
    addTo m k v ≠ [] := by
  cases m with
  | nil => simp [addTo]
  | cons p rest =>
    obtain ⟨k', v'⟩ := p
    by_cases hk : k' = k <;> simp [addTo, hk]

theorem mem_keys_addTo_self (m : List (String × Int)) (k : String) (v : Int) :
    k ∈ (addTo m k v).map Prod.fst := by
  induction m with
  | nil => simp [addTo]
  | cons p rest ih =>
    obtain ⟨k', v'⟩ := p
    by_cases hk : k' = k <;> simp [addTo, hk, ih]

theorem mem_keys_addTo_of_mem (m : List (String × Int)) (k k' : String) (v : Int)
    (h : k' ∈ m.map Prod.fst) : k' ∈ (addTo m k v).map Prod.fst := by
  induction m with
  | nil => simp at h
  | cons p rest ih =>
    obtain ⟨k₀, v₀⟩ := p
    simp only [List.map_cons, List.mem_cons] at h
    by_cases hk : k₀ = k
    · rcases h with h | h <;> simp [addTo, hk, h]
    · rcases h with h | h
      · simp [addTo, hk, h]
      · simp [addTo, hk, ih h]

theorem mem_keys_accumPairs_of_mem :
    ∀ (l m : List (String × Int)) (k' : String),
      k' ∈ m.map Prod.fst → k' ∈ (accumPairs m l).map Prod.fst := by
  intro l
  induction l with
  | nil => intro m k' h; simpa [accumPairs_nil] using h
  | cons a l ih =>
    intro m k' h
    cases l with
    | nil => simpa [accumPairs_single] using h
    | cons b rest =>
      rw [accumPairs_cons_cons]
      exact ih (addTo m a.1 (b.2 - a.2)) k' (mem_keys_addTo_of_mem _ _ _ _ h)

theorem sumVals_accumPairs :
    ∀ (l : List (String × Int)) (a : String × Int) (m : List (String × Int)),
      sumVals (accumPairs m (a :: l)) =
        sumVals m + (((a :: l).getLast (List.cons_ne_nil a l)).2 - a.2) := by
  intro l
  induction l with
  | nil => intro a m; simp [accumPairs_single, List.getLast_singleton]
  | cons b rest ih =>
    intro a m
    rw [accumPairs_cons_cons, ih b (addTo m a.1 (b.2 - a.2)), sumVals_addTo,
      List.getLast_cons (List.cons_ne_nil b rest)]
    ring

theorem keys_accumPairs_cover :
    ∀ (l : List (String × Int)) (a : String × Int) (m : List (String × Int))
      (e : String × Int), e ∈ a :: l →
      e.1 ∈ (accumPairs m (a :: l)).map Prod.fst ∨
        e.1 = ((a :: l).getLast (List.cons_ne_nil a l)).1 := by
  intro l
  induction l with
  | nil =>
    intro a m e he
    simp only [List.mem_singleton] at he
    right
    rw [he, List.getLast_singleton]
  | cons b rest ih =>
    intro a m e he
    rw [accumPairs_cons_cons, List.getLast_cons (List.cons_ne_nil b rest)]
    rcases List.mem_cons.1 he with he | he
    · left
      exact mem_keys_accumPairs_of_mem _ _ _
        (he ▸ mem_keys_addTo_self m a.1 (b.2 - a.2))
    · exact ih b (addTo m a.1 (b.2 - a.2)) e he

theorem phase_times_of_cons (a : String × Int) (l : List (String × Int)) (now : Int) :
    phase_times_of (a :: l) now =
      addTo (accumPairs [] (a :: l)) ((a :: l).getLast (List.cons_ne_nil a l)).1
        (now - ((a :: l).getLast (List.cons_ne_nil a l)).2) := by
  cases l with
  | nil =>
    obtain ⟨s, t⟩ := a
    simp [phase_times_of, accumPairs_single, List.getLast_singleton]
  | cons b rest =>
    have hlen : 1 < (a :: b :: rest).length := by simp
    have hlast := List.getLast?_eq_getLast (a :: b :: rest) (List.cons_ne_nil a _)
    obtain ⟨gs, gt⟩ : ∃ gs gt, (a :: b :: rest).getLast (List.cons_ne_nil a _) = (gs, gt) :=
      ⟨_, _, rfl⟩
    simp only [phase_times_of, if_pos hlen, hlast]

theorem monitor_ok_phase_times (ins cs : String) (h : List (String × Int)) (now : Int)
    (r : MonitoringData) (hr : monitor_workflow_progress ins cs h now = Except.ok r) :
    r.phase_times = phase_times_of h now := by
  simp only [monitor_workflow_progress] at hr
  rcases hA : analyze_workflow_efficiency (phase_times_of h now) with e | analysis <;>
    rw [hA] at hr
  · exact absurd hr (by simp)
  · simp only [Except.ok.injEq] at hr
    rw [← hr]

/-- C5 (monitor coverage identity): for a non-empty history with parsed,
non-decreasing timestamps, the phase durations computed by the monitor sum to
`now` minus the first entry's timestamp, every stage name occurring in the
history is a key of `phase_times`, and a successful monitor run returns
exactly this `phase_times` table. -/
theorem monitor_coverage_identity (h : List (String × Int)) (now : Int) (hne : h ≠ [])
    (hmono : h.Chain' (fun a b => a.2 ≤ b.2)) :
    sumVals (phase_times_of h now) = now - (h.head hne).2 ∧
    (∀ e ∈ h, e.1 ∈ (phase_times_of h now).map Prod.fst) ∧
    (∀ ins cs r, monitor_workflow_progress ins cs h now = Except.ok r →
      r.phase_times = phase_times_of h now) := by
  obtain ⟨a, l, rfl⟩ : ∃ a l, h = a :: l := by
    cases h with
    | nil => exact absurd rfl hne
    | cons a l => exact ⟨a, l, rfl⟩
  refine ⟨?_, ?_, ?_⟩
  · rw [phase_times_of_cons, sumVals_addTo, sumVals_accumPairs l a []]
    simp only [sumVals, List.map_nil, List.sum_nil, List.head_cons]
    ring
  · intro e he
    rw [phase_times_of_cons]
    rcases keys_accumPairs_cover l a [] e he with hk | hk
    · exact mem_keys_addTo_of_mem _ _ _ _ hk
    · rw [hk]; exact mem_keys_addTo_self _ _ _
  · intro ins cs r hr
    exact monitor_ok_phase_times ins cs (a :: l) now r hr

/-- Witness for C5 at a concrete two-entry history. -/
theorem monitor_coverage_identity_witness :
    ([("REQUIREMENTS", (0 : Int)), ("USER_STORIES", 10)] ≠ ([] : List (String × Int))) ∧
    sumVals (phase_times_of [("REQUIREMENTS", 0), ("USER_STORIES", 10)] 25) = 25 - 0 :=
  ⟨by decide,
    (monitor_coverage_identity [("REQUIREMENTS", 0), ("USER_STORIES", 10)] 25
      (by decide) (by norm_num [List.chain'_cons])).1⟩

/-- C9 (empty-history crash): with an empty history the monitor raises
`ZeroDivisionError` (empty `phase_times` makes `analyze_workflow_efficiency`
divide `time_variance` by `len(phase_times) == 0`); it returns normally only
when the history is non-empty, in which case `phase_times` is non-empty. -/
theorem monitor_empty_history_crash (ins cs : String) (h : List (String × Int)) (now : Int) :
    (h = [] → monitor_workflow_progress ins cs h now = Except.error "ZeroDivisionError") ∧
    (∀ r, monitor_workflow_progress ins cs h now = Except.ok r →
      h ≠ [] ∧ r.phase_times ≠ []) := by
  have hempty : monitor_workflow_progress ins cs [] now = Except.error "ZeroDivisionError" := rfl
  constructor
  · rintro rfl; exact hempty
  · intro r hr
    have hne : h ≠ [] := by
      rintro rfl
      rw [hempty] at hr
      exact absurd hr (by simp)
    refine ⟨hne, ?_⟩
    obtain ⟨a, l, rfl⟩ : ∃ a l, h = a :: l := by
      cases h with
      | nil => exact absurd rfl hne
      | cons a l => exact ⟨a, l, rfl⟩
    rw [monitor_ok_phase_times ins cs (a :: l) now r hr, phase_times_of_cons]
    exact addTo_ne_nil _ _ _

/-- Witness for C9: the monitor on an empty history at a concrete input. -/
theorem monitor_empty_history_crash_witness :
    monitor_workflow_progress "i" "REQUIREMENTS" [] 7 = Except.error "ZeroDivisionError" :=
  (monitor_empty_history_crash "i" "REQUIREMENTS" [] 7).1 rfl

/-! ## Dynamic graph builder (`src/graph/dynamic_graph_builder.py`) -/

/-- LangGraph's `END` sentinel. -/
def END : String := "__end__"

/-- The fixed fallback classification of `analyze_project_complexity`. -/
def default_analysis : Analysis where
  complexity := "medium"
  security_critical := true
  performance_critical := false
  data_intensive := false
  user_interface_focused := true
  integration_heavy := false

/-- `analyze_project_complexity`: builds a prompt, invokes the model at low
temperature, but never parses the response (`TODO: Parse LLM response` in the
source) and returns the hard-coded `default_analysis`. -/
def analyze_project_complexity (llm : String → String) (requirements : String) : Analysis :=
  let prompt := "You are an expert software project analyst. Analyze the following requirements and determine the project complexity and special needs. Requirements: " ++ requirements
  let _response := llm prompt
  default_analysis

/-- A workflow graph as assembled by `StateGraph.add_node` / `add_edge`: node
names (each bound to an external stage function) and directed edges, in
insertion order. -/
structure BuiltGraph where
  nodes : List String
  edges : List (String × String)
deriving DecidableEq, Repr

/-- The node/edge construction of `build_sdlc_graph` as a function of the
complexity analysis: the source computes `analysis` internally and then runs
exactly these `add_node`/`add_edge` calls. -/
def build_graph_from_analysis (analysis : Analysis) : BuiltGraph :=
  let nodes := ["requirements", "user_stories", "design", "code", "test"]
  let edges := [("requirements", "user_stories"), ("user_stories", "design")]
  let step1 :=
    if analysis.complexity = "high" then
      (nodes ++ ["architecture_review"],
        edges ++ [("design", "architecture_review"), ("architecture_review", "code")])
    else (nodes, edges ++ [("design", "code")])
  let step2 :=
    if analysis.security_critical then
      (step1.1 ++ ["security"], step1.2 ++ [("code", "security"), ("security", "test")])
    else (step1.1, step1.2 ++ [("code", "test")])
  { nodes := step2.1, edges := step2.2 ++ [("test", END)] }

/-- `build_sdlc_graph`: analyze the requirements, then build. -/
def build_sdlc_graph (llm : String → String) (requirements : String) : BuiltGraph :=
  build_graph_from_analysis (analyze_project_complexity llm requirements)

/-- C2 (graph construction determinism): a high-complexity security-critical
classification yields exactly the nodes requirements, user_stories, design,
architecture_review, code, security, test with edges
design→architecture_review→code→security→test→END; a low-complexity
non-security classification yields exactly requirements, user_stories,
design, code, test with design→code→test→END; both contain the backbone
requirements→user_stories→design. -/
theorem graph_construction_determinism (a b : Analysis)
    (ha1 : a.complexity = "high") (ha2 : a.security_critical = true)
    (hb1 : b.complexity = "low") (hb2 : b.security_critical = false) :
    ((build_graph_from_analysis a).nodes =
        ["requirements", "user_stories", "design", "code", "test",
          "architecture_review", "security"] ∧
      (build_graph_from_analysis a).edges =
        [("requirements", "user_stories"), ("user_stories", "design"),
          ("design", "architecture_review"), ("architecture_review", "code"),
          ("code", "security"), ("security", "test"), ("test", END)]) ∧
    ((build_graph_from_analysis b).nodes =
        ["requirements", "user_stories", "design", "code", "test"] ∧
      (build_graph_from_analysis b).edges =
        [("requirements", "user_stories"), ("user_stories", "design"),
          ("design", "code"), ("code", "test"), ("test", END)]) := by
  refine ⟨⟨?_, ?_⟩, ⟨?_, ?_⟩⟩ <;>
    simp [build_graph_from_analysis, ha1, ha2, hb1, hb2]

/-- Witness for C2 at the two concrete classification records. -/
theorem graph_construction_determinism_witness :
    (build_graph_from_analysis ⟨"high", true, false, false, true, false⟩).nodes =
      ["requirements", "user_stories", "design", "code", "test",
        "architecture_review", "security"] ∧
    (build_graph_from_analysis ⟨"low", false, false, false, true, false⟩).nodes =
      ["requirements", "user_stories", "design", "code", "test"] :=
  ⟨((graph_construction_determinism ⟨"high", true, false, false, true, false⟩
      ⟨"low", false, false, false, true, false⟩ rfl rfl rfl rfl).1).1,
    ((graph_construction_determinism ⟨"high", true, false, false, true, false⟩
      ⟨"low", false, false, false, true, false⟩ rfl rfl rfl rfl).2).1⟩

/-- C8 (constant classification): `analyze_project_complexity` returns the
same fixed record for every requirements text and every model response (the
response is never parsed); consequently every built graph is the
security-critical, medium-complexity variant: `security` always present,
`architecture_review` never present. -/
theorem classification_is_constant (llm : String → String) (requirements : String) :
    analyze_project_complexity llm requirements =
      { complexity := "medium", security_critical := true, performance_critical := false,
        data_intensive := false, user_interface_focused := true,
        integration_heavy := false } ∧
    "security" ∈ (build_sdlc_graph llm requirements).nodes ∧
    "architecture_review" ∉ (build_sdlc_graph llm requirements).nodes ∧
    build_sdlc_graph llm requirements = build_graph_from_analysis default_analysis := by
  have hn : (build_sdlc_graph llm requirements).nodes =
      ["requirements", "user_stories", "design", "code", "test", "security"] := rfl
  refine ⟨rfl, ?_, ?_, rfl⟩ <;> rw [hn] <;> decide

/-! ## Retry state machine (`src/graph/sdlc_graph.py`) -/

/-- History entries of the LangGraph state (`SDLCGraphState.history`): stage
records, or the error records appended by `error_handler_node`
(`{"type": "error", "operation", "error", "retries"}`; the recorded `error`
value is the state's `error` entry, possibly `None`). -/
inductive GHEntry where
  | stage (stage : String) (timestamp : Int)
  | error (operation : String) (errVal : Option String) (retries : Nat)
deriving DecidableEq, Repr

/-- The slice of `SDLCGraphState` read and written by the retry machinery.
The retries dict is a total map with Python's `.get(op, 0)` default. -/
structure GState where
  error : Option String
  current_operation : String
  retries : String → Nat
  history : List GHEntry
  current_stage : String

/-- Python truthiness of the `error` field (`if not error:`): a missing/None
value and the empty string are falsy. -/
def truthy : Option String → Bool
  | none => false
  | some s => if s = "" then false else true

/-- `should_retry_operation`. -/
def should_retry_operation (s : GState) : Bool :=
  if truthy s.error = false then false
  else s.retries s.current_operation < 3

/-- `retries[op] = v`. -/
def setRetry (f : String → Nat) (op : String) (v : Nat) : String → Nat :=
  fun k => if k = op then v else f k

/-- One execution of a graph node whose body always raises (the claim's
hypothesis): the node sets `current_operation := op`, runs the retry
preamble (`if state.get("error") and should_retry_operation(state):`
increment the retry count and clear `error`), then the body fails and the
`except` clause stores `error := "Error in ...: " + str(e)` — a non-empty
string, abstracted as `errMsg`. -/
def failing_node (op errMsg : String) (s : GState) : GState :=
  let s1 := { s with current_operation := op }
  let s2 :=
    if truthy s1.error && should_retry_operation s1 then
      { s1 with retries := setRetry s1.retries op (s1.retries op + 1), error := none }
    else s1
  { s2 with error := some errMsg }

/-- `error_handler_node`: when `retries >= 3`, append an error record and
clear `error`; otherwise leave the state unchanged. -/
def error_handler_node (s : GState) : GState :=
  let retries := s.retries s.current_operation
  if 3 ≤ retries then
    { s with
      history := s.history ++ [GHEntry.error s.current_operation s.error retries]
      error := none }
  else s

/-- A routing target: a named node or LangGraph's `END`. -/
inductive Dest where
  | node (name : String)
  | stop
deriving DecidableEq, Repr

/-- The `current_stage`-based fallback chain of `next_after_error_handler`
(taken when no retry is due). -/
def canonical_fallback (stage : String) : Dest :=
  if stage = "REQUIREMENTS" then Dest.node "generate_user_stories"
  else if stage = "USER_STORIES" then Dest.node "generate_design_documents"
  else if stage = "DESIGN" then Dest.stop
  else Dest.stop

/-- `next_after_error_handler`. -/
def next_after_error_handler (s : GState) : Dest :=
  if truthy s.error && should_retry_operation s then Dest.node s.current_operation
  else canonical_fallback s.current_stage

/-- Execution phases of the retry episode of one failing node: at the node,
at the error handler, exited via the handler's canonical fallback, or exited
via the node's normal (non-error) routing. -/
inductive Phase where
  | atNode
  | atHandler
  | exitedFallback (d : Dest)
  | exitedNormal
deriving DecidableEq, Repr

/-- One step of the node → error_handler → routing machine for an
always-failing operation `op`.  After the node runs, its edge-decision
function routes to `error_handler` whenever `error` is truthy (every
`next_after_*` function opens with this guard).  After the handler, the
first branch of `next_after_error_handler` (retry due) re-enters the node —
its target is `current_operation`, which the node execution keeps equal to
`op` — otherwise the machine leaves the loop at that function's canonical
fallback.  The `Nat` component counts node invocations. -/
def stepFail (op errMsg : String) : Phase × GState × Nat → Phase × GState × Nat
  | (Phase.atNode, s, c) =>
    let s1 := failing_node op errMsg s
    if truthy s1.error then (Phase.atHandler, s1, c + 1)
    else (Phase.exitedNormal, s1, c + 1)
  | (Phase.atHandler, s, c) =>
    let s1 := error_handler_node s
    if truthy s1.error && should_retry_operation s1 then (Phase.atNode, s1, c)
    else (Phase.exitedFallback (next_after_error_handler s1), s1, c)
  | (Phase.exitedFallback d, s, c) => (Phase.exitedFallback d, s, c)
  | (Phase.exitedNormal, s, c) => (Phase.exitedNormal, s, c)

/-- `n` steps of the retry machine. -/
def iterFail (op errMsg : String) : Nat → Phase × GState × Nat → Phase × GState × Nat
  | 0, x => x
  | n + 1, x => stepFail op errMsg (iterFail op errMsg n x)

/-- The state reached after the node's k-th failed invocation (k = 2, 3, 4
carry the incremented retry maps). -/
def failedState (s0 : GState) (op errMsg : String) (r : String → Nat) : GState :=
  { s0 with
      current_operation := op
      error := some errMsg
      retries := r }

/-- The state after the error handler exhausts the retries: error cleared,
one error record appended. -/
def exhaustedState (s0 : GState) (op errMsg : String) (r : String → Nat) : GState :=
  { s0 with
      current_operation := op
      error := none
      retries := r
      history := s0.history ++ [GHEntry.error op (some errMsg) 3] }

/-- C1 (retry ceiling): from a state with no error and a zero retry count for
`op`, if `op`'s node fails on every execution, the node → error_handler →
routing machine invokes the node exactly 4 times (1 initial + 3 retries): 8
steps reach the exited-by-fallback phase with invocation count 4, the final
state has exactly one appended history entry of type error carrying
`retries == 3` and a cleared `error`, routing proceeds by the canonical
`current_stage` fallback, and no run ever exceeds 4 invocations (a fifth
invocation is unreachable). -/
theorem retry_ceiling (s0 : GState) (op errMsg : String)
    (h0 : truthy s0.error = false) (hr : s0.retries op = 0) (hm : errMsg ≠ "") :
    iterFail op errMsg 8 (Phase.atNode, s0, 0) =
      (Phase.exitedFallback (canonical_fallback s0.current_stage),
        exhaustedState s0 op errMsg
          (setRetry (setRetry (setRetry s0.retries op 1) op 2) op 3), 4) ∧
    ∀ n, (iterFail op errMsg n (Phase.atNode, s0, 0)).2.2 ≤ 4 := by
  have hsome : truthy (some errMsg) = true := by simp [truthy, hm]
  have t1 : stepFail op errMsg (Phase.atNode, s0, 0) =
      (Phase.atHandler, failedState s0 op errMsg s0.retries, 1) := by
    simp [stepFail, failing_node, should_retry_operation, failedState, h0, hsome]
  have t2 : stepFail op errMsg (Phase.atHandler, failedState s0 op errMsg s0.retries, 1) =
      (Phase.atNode, failedState s0 op errMsg s0.retries, 1) := by
    simp [stepFail, error_handler_node, should_retry_operation, failedState, hsome, hr]
  have t3 : stepFail op errMsg (Phase.atNode, failedState s0 op errMsg s0.retries, 1) =
      (Phase.atHandler, failedState s0 op errMsg (setRetry s0.retries op 1), 2) := by
    simp [stepFail, failing_node, should_retry_operation, failedState, hsome, hr]
  have t4 : stepFail op errMsg
      (Phase.atHandler, failedState s0 op errMsg (setRetry s0.retries op 1), 2) =
      (Phase.atNode, failedState s0 op errMsg (setRetry s0.retries op 1), 2) := by
    simp [stepFail, error_handler_node, should_retry_operation, failedState, hsome, setRetry]
  have t5 : stepFail op errMsg
      (Phase.atNode, failedState s0 op errMsg (setRetry s0.retries op 1), 2) =
      (Phase.atHandler,
        failedState s0 op errMsg (setRetry (setRetry s0.retries op 1) op 2), 3) := by
    simp [stepFail, failing_node, should_retry_operation, failedState, hsome, setRetry]
  have t6 : stepFail op errMsg
      (Phase.atHandler, failedState s0 op errMsg (setRetry (setRetry s0.retries op 1) op 2), 3) =
      (Phase.atNode, failedState s0 op errMsg (setRetry (setRetry s0.retries op 1) op 2), 3) := by
    simp [stepFail, error_handler_node, should_retry_operation, failedState, hsome, setRetry]
  have t7 : stepFail op errMsg
      (Phase.atNode, failedState s0 op errMsg (setRetry (setRetry s0.retries op 1) op 2), 3) =
      (Phase.atHandler,
        failedState s0 op errMsg
          (setRetry (setRetry (setRetry s0.retries op 1) op 2) op 3), 4) := by
    simp [stepFail, failing_node, should_retry_operation, failedState, hsome, setRetry]
  have t8 : stepFail op errMsg
      (Phase.atHandler,
        failedState s0 op errMsg
          (setRetry (setRetry (setRetry s0.retries op 1) op 2) op 3), 4) =
      (Phase.exitedFallback (canonical_fallback s0.current_stage),
        exhaustedState s0 op errMsg
          (setRetry (setRetry (setRetry s0.retries op 1) op 2) op 3), 4) := by
    simp [stepFail, error_handler_node, should_retry_operation,
      next_after_error_handler, truthy, failedState, exhaustedState, setRetry]
  have i1 : iterFail op errMsg 1 (Phase.atNode, s0, 0) =
      (Phase.atHandler, failedState s0 op errMsg s0.retries, 1) := t1
  have i2 : iterFail op errMsg 2 (Phase.atNode, s0, 0) =
      (Phase.atNode, failedState s0 op errMsg s0.retries, 1) := by
    rw [show iterFail op errMsg 2 (Phase.atNode, s0, 0) =
      stepFail op errMsg (iterFail op errMsg 1 (Phase.atNode, s0, 0)) from rfl, i1, t2]
  have i3 : iterFail op errMsg 3 (Phase.atNode, s0, 0) =
      (Phase.atHandler, failedState s0 op errMsg (setRetry s0.retries op 1), 2) := by
    rw [show iterFail op errMsg 3 (Phase.atNode, s0, 0) =
      stepFail op errMsg (iterFail op errMsg 2 (Phase.atNode, s0, 0)) from rfl, i2, t3]
  have i4 : iterFail op errMsg 4 (Phase.atNode, s0, 0) =
      (Phase.atNode, failedState s0 op errMsg (setRetry s0.retries op 1), 2) := by
    rw [show iterFail op errMsg 4 (Phase.atNode, s0, 0) =
      stepFail op errMsg (iterFail op errMsg 3 (Phase.atNode, s0, 0)) from rfl, i3, t4]
  have i5 : iterFail op errMsg 5 (Phase.atNode, s0, 0) =
      (Phase.atHandler,
        failedState s0 op errMsg (setRetry (setRetry s0.retries op 1) op 2), 3) := by
    rw [show iterFail op errMsg 5 (Phase.atNode, s0, 0) =
      stepFail op errMsg (iterFail op errMsg 4 (Phase.atNode, s0, 0)) from rfl, i4, t5]
  have i6 : iterFail op errMsg 6 (Phase.atNode, s0, 0) =
      (Phase.atNode,
        failedState s0 op errMsg (setRetry (setRetry s0.retries op 1) op 2), 3) := by
    rw [show iterFail op errMsg 6 (Phase.atNode, s0, 0) =
      stepFail op errMsg (iterFail op errMsg 5 (Phase.atNode, s0, 0)) from rfl, i5, t6]
  have i7 : iterFail op errMsg 7 (Phase.atNode, s0, 0) =
      (Phase.atHandler,
        failedState s0 op errMsg
          (setRetry (setRetry (setRetry s0.retries op 1) op 2) op 3), 4) := by
    rw [show iterFail op errMsg 7 (Phase.atNode, s0, 0) =
      stepFail op errMsg (iterFail op errMsg 6 (Phase.atNode, s0, 0)) from rfl, i6, t7]
  have i8 : iterFail op errMsg 8 (Phase.atNode, s0, 0) =
      (Phase.exitedFallback (canonical_fallback s0.current_stage),
        exhaustedState s0 op errMsg
          (setRetry (setRetry (setRetry s0.retries op 1) op 2) op 3), 4) := by
    rw [show iterFail op errMsg 8 (Phase.atNode, s0, 0) =
      stepFail op errMsg (iterFail op errMsg 7 (Phase.atNode, s0, 0)) from rfl, i7, t8]
  refine ⟨i8, ?_⟩
  intro n
  rcases le_or_lt n 8 with hn | hn
  · interval_cases n
    · norm_num [iterFail]
    · simp [i1]
    · simp [i2]
    · simp [i3]
    · simp [i4]
    · simp [i5]
    · simp [i6]
    · simp [i7]
    · simp [i8]
  · obtain ⟨k, rfl⟩ : ∃ k, n = 8 + k := ⟨n - 8, by omega⟩
    have habs : ∀ j, iterFail op errMsg (8 + j) (Phase.atNode, s0, 0) =
        iterFail op errMsg 8 (Phase.atNode, s0, 0) := by
      intro j
      induction j with
      | zero => rfl
      | succ j ih =>
        rw [show iterFail op errMsg (8 + (j + 1)) (Phase.atNode, s0, 0) =
          stepFail op errMsg (iterFail op errMsg (8 + j) (Phase.atNode, s0, 0)) from rfl,
          ih, i8]
        rfl
    rw [habs, i8]

/-- Concrete start state for the C1 witness. -/
def retryWitnessState : GState where
  error := none
  current_operation := "start"
  retries := fun _ => 0
  history := []
  current_stage := "USER_STORIES"

/-- Witness for C1: the hypotheses hold at a concrete state and operation,
and the run makes exactly 4 node invocations. -/
theorem retry_ceiling_witness :
    truthy retryWitnessState.error = false ∧
    retryWitnessState.retries "generate_user_stories" = 0 ∧
    ("boom" ≠ "") ∧
    (iterFail "generate_user_stories" "boom" 8 (Phase.atNode, retryWitnessState, 0)).2.2 = 4 :=
  ⟨rfl, rfl, by decide, by
    rw [(retry_ceiling retryWitnessState "generate_user_stories" "boom" rfl rfl
      (by decide)).1]⟩

/-! ## Feedback application (`src/main.py`, `process_feedback`) -/

/-- A compiled-graph invocation result (`sdlc_graph.invoke(...)`), restricted
to the keys the merge loop of `process_feedback` can copy into `SDLCState`
(`for key, value in result.items(): if hasattr(state, key): setattr(...)`).
`none` means the key is absent from the result dict; result keys that are not
`SDLCState` attributes are skipped by the `hasattr` guard and so are not
modelled. -/
structure NodeResult where
  session_id : Option String := none
  current_stage : Option String := none
  requirements : Option (Option String) := none
  user_stories : Option (Option String) := none
  functional_design : Option (Option String) := none
  non_functional_design : Option (Option String) := none
  code_artifacts : Option (Option (List (String × String))) := none
  security_findings : Option (Option String) := none
  test_cases : Option (Option String) := none
  test_results : Option (Option String) := none
  feedback : Option (List (String × List String)) := none
  created_at : Option Int := none
  last_updated : Option Int := none
  history : Option (List (String × Int)) := none
  monitoring : Option (Option MonitoringData) := none
  complexity_analysis : Option (Option Analysis) := none

/-- The merge loop: every key present in the result overwrites the state's
attribute of the same name. -/
def mergeResult (s : SDLCState) (r : NodeResult) : SDLCState where
  session_id := r.session_id.getD s.session_id
  current_stage := r.current_stage.getD s.current_stage
  requirements := r.requirements.getD s.requirements
  user_stories := r.user_stories.getD s.user_stories
  functional_design := r.functional_design.getD s.functional_design
  non_functional_design := r.non_functional_design.getD s.non_functional_design
  code_artifacts := r.code_artifacts.getD s.code_artifacts
  security_findings := r.security_findings.getD s.security_findings
  test_cases := r.test_cases.getD s.test_cases
  test_results := r.test_results.getD s.test_results
  feedback := r.feedback.getD s.feedback
  created_at := r.created_at.getD s.created_at
  last_updated := r.last_updated.getD s.last_updated
  history := r.history.getD s.history
  monitoring := r.monitoring.getD s.monitoring
  complexity_analysis := r.complexity_analysis.getD s.complexity_analysis

/-- `stage_node_mapping.get(stage)` in `process_feedback`. -/
def stage_node_mapping (stage : String) : Option String :=
  if stage = "REQUIREMENTS" then some "requirements"
  else if stage = "USER_STORIES" then some "user_stories"
  else if stage = "DESIGN" then some "design"
  else if stage = "CODE" then some "code"
  else if stage = "SECURITY" then some "security"
  else if stage = "TESTING" then some "test"
  else none

/-- `sessions.get(session_id)`, yielding the stored state (each session's
compiled graph is folded into the invocation oracle). -/
def lookupSession : List (String × SDLCState) → String → Option SDLCState
  | [], _ => none
  | (k, v) :: rest, sid => if k = sid then some v else lookupSession rest sid

/-- The state mutation performed by `process_feedback` on a found session,
before the final monitoring call: append the feedback, then either advance
(`approved`: move to `get_next_stage`, record history, run the graph and
merge its result) or re-run the current stage's node with the feedback
attached (skipped entirely when the stage has no mapped node). -/
def feedback_core (invoke : SDLCState → Option String → NodeResult)
    (state0 : SDLCState) (stage : String) (approved : Bool) (comments : String)
    (now : Int) : SDLCState :=
  let state1 := state0.add_feedback stage comments now
  if approved then
    let state := state1.update_stage state1.get_next_stage now
    mergeResult state (invoke state none)
  else
    let current_state := { state1 with feedback := [(stage, fbGet state1.feedback stage)] }
    match stage_node_mapping stage with
    | some node_name => mergeResult state1 (invoke current_state (some node_name))
    | none => state1

/-- `process_feedback` of `src/main.py`.  The per-session compiled LangGraph
(and the generative calls inside its nodes) is the oracle `invoke`; a raised
exception is `Except.error`.  A missing session raises
`ValueError(f"Session {session_id} not found.")`; otherwise the state is
mutated, re-monitored (which can itself raise, see
`analyze_workflow_efficiency`), stored back and returned. -/
def process_feedback (invoke : SDLCState → Option String → NodeResult)
    (insights_oracle : String) (sessions : List (String × SDLCState))
    (session_id stage : String) (approved : Bool) (comments : String)
    (now : Int) : Except String SDLCState :=
  match lookupSession sessions session_id with
  | none => Except.error ("Session " ++ session_id ++ " not found.")
  | some state0 =>
    let state2 := feedback_core invoke state0 stage approved comments now
    match monitor_workflow_progress insights_oracle state2.current_stage state2.history now with
    | Except.error e => Except.error e
    | Except.ok mon => Except.ok { state2 with monitoring := some mon }

theorem fbGet_fbAppend_self (m : List (String × List String)) (k v : String) :
    fbGet (SDLCState.fbAppend m k v) k = fbGet m k ++ [v] := by
  induction m with
  | nil => simp [SDLCState.fbAppend, fbGet]
  | cons p rest ih =>
    obtain ⟨k', l⟩ := p
    by_cases h : k' = k <;> simp [SDLCState.fbAppend, fbGet, h, ih]

theorem fbGet_fbAppend_other (m : List (String × List String)) (k k' v : String)
    (h : k' ≠ k) : fbGet (SDLCState.fbAppend m k v) k' = fbGet m k' := by
  induction m with
  | nil => simp [SDLCState.fbAppend, fbGet, Ne.symm h]
  | cons p rest ih =>
    obtain ⟨k₀, l⟩ := p
    by_cases h0 : k₀ = k
    · subst h0
      simp [SDLCState.fbAppend, fbGet, Ne.symm h, h]
    · by_cases h1 : k₀ = k' <;> simp [SDLCState.fbAppend, fbGet, h0, h1, ih, h]

theorem analyze_error_is_zdiv (pt : List (String × Int)) (e : String)
    (h : analyze_workflow_efficiency pt = Except.error e) : e = "ZeroDivisionError" := by
  simp only [analyze_workflow_efficiency] at h
  by_cases h1 : pt ≠ [] ∧ sumVals pt = 0
  · rw [if_pos h1] at h
    injection h with h2
    exact h2.symm
  · rw [if_neg h1] at h
    by_cases h2 : pt.length = 0
    · rw [if_pos h2] at h
      injection h with h3
      exact h3.symm
    · rw [if_neg h2] at h
      exact absurd h (by simp)

theorem monitor_error_is_zdiv (ins cs : String) (hist : List (String × Int)) (now : Int)
    (e : String) (h : monitor_workflow_progress ins cs hist now = Except.error e) :
    e = "ZeroDivisionError" := by
  simp only [monitor_workflow_progress] at h
  rcases hA : analyze_workflow_efficiency (phase_times_of hist now) with e' | a <;>
    rw [hA] at h
  · simp only [Except.error.injEq] at h
    exact h ▸ analyze_error_is_zdiv _ _ hA
  · exact absurd h (by simp)

theorem monitor_cases (ins cs : String) (hist : List (String × Int)) (now : Int) :
    (∃ m, monitor_workflow_progress ins cs hist now = Except.ok m) ∨
      monitor_workflow_progress ins cs hist now = Except.error "ZeroDivisionError" := by
  rcases hm : monitor_workflow_progress ins cs hist now with e | m
  · right
    rw [monitor_error_is_zdiv ins cs hist now e hm]
  · exact Or.inl ⟨m, rfl⟩

/-- An invocation oracle whose result dict carries no state attributes. -/
def emptyInvoke : SDLCState → Option String → NodeResult := fun _ _ => {}

/-- C6 counterexample: for a session id absent from the store,
`process_feedback` itself raises `ValueError` — it does not report not-found
for the caller to handle. -/
theorem feedback_not_found_cex :
    process_feedback emptyInvoke "i" [] "missing" "DESIGN" false "c" 0 =
      Except.error "Session missing not found." := rfl

/-- C6 (amended): for every session id absent from the store,
`process_feedback` raises `ValueError(f"Session {session_id} not found.")` at
this layer; for present sessions it returns an updated state in all branches
except when the trailing monitoring recomputation divides by zero. -/
theorem feedback_not_found (invoke : SDLCState → Option String → NodeResult)
    (ins : String) (sessions : List (String × SDLCState)) (sid stage : String)
    (approved : Bool) (comments : String) (now : Int) :
    (lookupSession sessions sid = none →
      process_feedback invoke ins sessions sid stage approved comments now =
        Except.error ("Session " ++ sid ++ " not found.")) ∧
    (∀ s, lookupSession sessions sid = some s →
      (∃ r, process_feedback invoke ins sessions sid stage approved comments now =
        Except.ok r) ∨
      process_feedback invoke ins sessions sid stage approved comments now =
        Except.error "ZeroDivisionError") := by
  constructor
  · intro h
    simp only [process_feedback, h]
  · intro s h
    simp only [process_feedback, h]
    rcases monitor_cases ins (feedback_core invoke s stage approved comments now).current_stage
        (feedback_core invoke s stage approved comments now).history now with ⟨m, hm⟩ | hm <;>
      rw [hm]
    · exact Or.inl ⟨_, rfl⟩
    · exact Or.inr rfl

/-- Witness for C6 (amended) at a concrete empty store. -/
theorem feedback_not_found_witness :
    lookupSession ([] : List (String × SDLCState)) "missing" = none ∧
    process_feedback emptyInvoke "i" [] "missing" "DESIGN" false "c" 0 =
      Except.error "Session missing not found." :=
  ⟨rfl, (feedback_not_found emptyInvoke "i" [] "missing" "DESIGN" false "c" 0).1 rfl⟩

theorem get_next_stage_congr (s t : SDLCState) (h : s.current_stage = t.current_stage) :
    s.get_next_stage = t.get_next_stage := by
  unfold SDLCState.get_next_stage
  rw [h]

theorem process_feedback_ok_projections (invoke : SDLCState → Option String → NodeResult)
    (ins : String) (sessions : List (String × SDLCState)) (sid stage : String)
    (approved : Bool) (comments : String) (now : Int) (s r : SDLCState)
    (hlook : lookupSession sessions sid = some s)
    (hr : process_feedback invoke ins sessions sid stage approved comments now =
      Except.ok r) :
    r.current_stage = (feedback_core invoke s stage approved comments now).current_stage ∧
    r.feedback = (feedback_core invoke s stage approved comments now).feedback ∧
    r.history = (feedback_core invoke s stage approved comments now).history := by
  simp only [process_feedback, hlook] at hr
  rcases hM : monitor_workflow_progress ins
      (feedback_core invoke s stage approved comments now).current_stage
      (feedback_core invoke s stage approved comments now).history now with e | mon <;>
    rw [hM] at hr
  · exact absurd hr (by simp)
  · simp only [Except.ok.injEq] at hr
    rw [← hr]
    exact ⟨rfl, rfl, rfl⟩

theorem feedback_core_false (invoke : SDLCState → Option String → NodeResult)
    (s : SDLCState) (stage comments : String) (now : Int)
    (hframe : ∀ st tgt, (invoke st tgt).current_stage = none ∧
      (invoke st tgt).feedback = none ∧ (invoke st tgt).history = none) :
    (feedback_core invoke s stage false comments now).current_stage = s.current_stage ∧
    (feedback_core invoke s stage false comments now).feedback =
      SDLCState.fbAppend s.feedback stage comments ∧
    (feedback_core invoke s stage false comments now).history = s.history := by
  cases hmap : stage_node_mapping stage with
  | none => simp [feedback_core, hmap, SDLCState.add_feedback]
  | some nn => simp [feedback_core, hmap, SDLCState.add_feedback, mergeResult, hframe]

theorem feedback_core_true (invoke : SDLCState → Option String → NodeResult)
    (s : SDLCState) (stage comments : String) (now : Int)
    (hframe : ∀ st tgt, (invoke st tgt).current_stage = none ∧
      (invoke st tgt).feedback = none ∧ (invoke st tgt).history = none) :
    (feedback_core invoke s stage true comments now).current_stage =
      (s.add_feedback stage comments now).get_next_stage ∧
    (feedback_core invoke s stage true comments now).history =
      s.history ++ [(s.current_stage, now)] := by
  simp [feedback_core, SDLCState.update_stage, SDLCState.add_feedback, mergeResult, hframe]

/-- C4 (amended): for a stored session at stage S, provided the graph
invocation's result dict carries no `current_stage`/`feedback`/`history` keys
(the merge loop copies any such keys verbatim, see the counterexample) and
the call returns (the trailing monitoring call can raise, see C9): rejected
feedback with comments leaves `current_stage == S` and appends exactly one
entry to `feedback[S]`, all other stages' feedback lists unchanged; approved
feedback sets `current_stage` to `next_stage(S)` and appends exactly one
history entry. -/
theorem feedback_round_trip (invoke : SDLCState → Option String → NodeResult)
    (ins : String) (sessions : List (String × SDLCState)) (sid : String)
    (comments : String) (now : Int) (s : SDLCState)
    (hlook : lookupSession sessions sid = some s)
    (hframe : ∀ st tgt, (invoke st tgt).current_stage = none ∧
      (invoke st tgt).feedback = none ∧ (invoke st tgt).history = none)
    (hcomments : comments ≠ "") :
    (∀ r, process_feedback invoke ins sessions sid s.current_stage false comments now =
        Except.ok r →
      r.current_stage = s.current_stage ∧
      fbGet r.feedback s.current_stage = fbGet s.feedback s.current_stage ++ [comments] ∧
      (∀ k, k ≠ s.current_stage → fbGet r.feedback k = fbGet s.feedback k)) ∧
    (∀ r, process_feedback invoke ins sessions sid s.current_stage true comments now =
        Except.ok r →
      r.current_stage = s.get_next_stage ∧
      r.history = s.history ++ [(s.current_stage, now)]) := by
  constructor
  · intro r hr
    obtain ⟨hcs, hfb, -⟩ := process_feedback_ok_projections invoke ins sessions sid
      s.current_stage false comments now s r hlook hr
    obtain ⟨hc1, hc2, -⟩ := feedback_core_false invoke s s.current_stage comments now hframe
    refine ⟨by rw [hcs, hc1], ?_, ?_⟩
    · rw [hfb, hc2, fbGet_fbAppend_self]
    · intro k hk
      rw [hfb, hc2, fbGet_fbAppend_other _ _ _ _ hk]
  · intro r hr
    obtain ⟨hcs, -, hh⟩ := process_feedback_ok_projections invoke ins sessions sid
      s.current_stage true comments now s r hlook hr
    obtain ⟨hc1, hc2⟩ := feedback_core_true invoke s s.current_stage comments now hframe
    constructor
    · rw [hcs, hc1]
      exact get_next_stage_congr _ _ rfl
    · rw [hh, hc2]

/-- An invocation oracle whose result dict carries a `current_stage` key, as
the repository's stage functions actually do (e.g. `test_generator_node`
returns `{"current_stage": "COMPLETE", ...}`). -/
def clobberInvoke : SDLCState → Option String → NodeResult :=
  fun _ _ => { current_stage := some "COMPLETE" }

/-- A stored session sitting at stage DESIGN with one history entry. -/
def storedState : SDLCState :=
  { baseState with
      session_id := "sess"
      current_stage := "DESIGN"
      history := [("REQUIREMENTS", 0)] }

/-- C4 counterexample: rejected feedback (approved=false, non-empty comments)
on a session at stage DESIGN does *not* leave `current_stage` at DESIGN when
the re-run node's result carries a `current_stage` key: the merge loop copies
it and the returned state sits at COMPLETE. -/
theorem feedback_round_trip_cex :
    storedState.current_stage = "DESIGN" ∧
    (process_feedback clobberInvoke "i" [("sess", storedState)] "sess" "DESIGN" false
        "add caching" 20).toOption.map SDLCState.current_stage = some "COMPLETE" :=
  ⟨rfl, rfl⟩

/-- Witness for C4 (amended): with an attribute-free invocation result, a
rejected submission stays at DESIGN and an approved one moves to CODE. -/
theorem feedback_round_trip_witness :
    lookupSession [("sess", storedState)] "sess" = some storedState ∧
    ("add caching" ≠ "") ∧
    (process_feedback emptyInvoke "i" [("sess", storedState)] "sess" "DESIGN" false
        "add caching" 20).toOption.map SDLCState.current_stage = some "DESIGN" ∧
    (process_feedback emptyInvoke "i" [("sess", storedState)] "sess" "DESIGN" true
        "add caching" 20).toOption.map SDLCState.current_stage = some "CODE" := by
  refine ⟨rfl, by decide, ?_, ?_⟩
  · obtain ⟨r, hok⟩ : ∃ r, process_feedback emptyInvoke "i" [("sess", storedState)] "sess"
        "DESIGN" false "add caching" 20 = Except.ok r := ⟨_, rfl⟩
    have h1 := ((feedback_round_trip emptyInvoke "i" [("sess", storedState)] "sess"
      "add caching" 20 storedState rfl (fun _ _ => ⟨rfl, rfl, rfl⟩) (by decide)).1 r hok).1
    rw [hok]
    show some r.current_stage = some "DESIGN"
    rw [h1]
    rfl
  · obtain ⟨r, hok⟩ : ∃ r, process_feedback emptyInvoke "i" [("sess", storedState)] "sess"
        "DESIGN" true "add caching" 20 = Except.ok r := ⟨_, rfl⟩
    have h1 := ((feedback_round_trip emptyInvoke "i" [("sess", storedState)] "sess"
      "add caching" 20 storedState rfl (fun _ _ => ⟨rfl, rfl, rfl⟩) (by decide)).2 r hok).1
    rw [hok]
    show some r.current_stage = some "CODE"
    rw [h1]
    rfl
